import Mathlib

/-!
Verification of the MCP Gateway core (developer-mcp-gateway) against its
specification.  The TypeScript sources are shallowly embedded: pure string
helpers become functions on `List Char` (JS strings), stateful classes become
explicit state passing on Lean structures, thrown errors become `Except`,
and asynchronous callbacks become explicit outcome parameters.
-/

set_option maxRecDepth 4000

namespace McpGateway

/-- ASCII lower-casing of one character, as `String.prototype.toLowerCase`
acts on the ASCII range (all names in the claims are ASCII). -/
def asciiToLower (c : Char) : Char :=
  if 'A' ≤ c ∧ c ≤ 'Z' then Char.ofNat (c.toNat + 32) else c

/-- Test for the character class `[a-z0-9]` used by the regex in
`normalizePrefix` (the input is lower-cased first, so `[^a-z0-9]` is the
complement of this class). -/
def isLowerAlnum (c : Char) : Bool :=
  ('a' ≤ c ∧ c ≤ 'z') ∨ ('0' ≤ c ∧ c ≤ '9')

/-- One pass of `.replace(/[^a-z0-9]+/g, "_")`: every maximal run of
characters outside `[a-z0-9]` becomes a single `'_'`.  The boolean flag
records whether we are currently inside such a run. -/
def collapseRuns : Bool → List Char → List Char
  | _, [] => []
  | inRun, c :: cs =>
      if isLowerAlnum c then c :: collapseRuns false cs
      else if inRun then collapseRuns true cs
      else '_' :: collapseRuns true cs

/-- Drop trailing `'_'` characters (the `_+$` half of the trim regex).
Returns a prefix of the input. -/
def dropTrailingUnderscores : List Char → List Char
  | [] => []
  | c :: cs =>
      match dropTrailingUnderscores cs with
      | [] => if c = '_' then [] else [c]
      | rest => c :: rest

/-- The `.replace(/^_+|_+$/g, "")` trim: remove leading and trailing
underscores. -/
def trimUnderscores (l : List Char) : List Char :=
  dropTrailingUnderscores (l.dropWhile (fun c => c = '_'))

/-- `normalizePrefix` from `mcp-proxy.ts`: lower-case the server name,
replace every run of non-alphanumeric characters with a single `'_'`, and
trim leading/trailing underscores.  List-of-characters version. -/
def normalizePrefixL (name : List Char) : List Char :=
  trimUnderscores (collapseRuns false (name.map asciiToLower))

/-- `normalizePrefix` on `String` (the JS function). -/
def normalizePrefixS (name : String) : String :=
  ⟨normalizePrefixL name.data⟩

/-- The separator `PREFIX_SEP = "__"` between server prefix and original
tool/resource/prompt name. -/
def prefixSep : List Char := ['_', '_']

/-- `prefixName` from `mcp-proxy.ts`: `normalizePrefix(serverName) ++ "__"
++ originalName`, list version. -/
def prefixNameL (serverName originalName : List Char) : List Char :=
  normalizePrefixL serverName ++ prefixSep ++ originalName

/-- `prefixName` on `String`. -/
def prefixNameS (serverName originalName : String) : String :=
  ⟨prefixNameL serverName.data originalName.data⟩

/-- `parsePrefixedName` from `mcp-proxy.ts`: split at the FIRST occurrence
of the separator `"__"` (`indexOf`); `none` when the separator does not
occur.  List version; scans left to right like `String.prototype.indexOf`. -/
def parsePrefixedNameL : List Char → Option (List Char × List Char)
  | [] => none
  | c :: cs =>
      if c = '_' ∧ cs.head? = some '_' then
        some ([], cs.tail)
      else
        (parsePrefixedNameL cs).map (fun pr => (c :: pr.1, pr.2))

/-- `parsePrefixedName` on `String`, returning `(prefix, originalName)`. -/
def parsePrefixedNameS (prefixedName : String) : Option (String × String) :=
  (parsePrefixedNameL prefixedName.data).map
    (fun pr => (⟨pr.1⟩, ⟨pr.2⟩))

/-- Whether the separator `"__"` occurs anywhere in the list
(JS `s.includes("__")`). -/
def containsSep : List Char → Bool
  | [] => false
  | [_] => false
  | a :: b :: rest => (a == '_' && b == '_') || containsSep (b :: rest)

/-- `String.prototype.lastIndexOf(" ")`, as an `Option` (`none` for the
JS result `-1`). -/
def lastSpacePos : List Char → Option Nat
  | [] => none
  | c :: cs =>
      match lastSpacePos cs with
      | some i => some (i + 1)
      | none => if c = ' ' then some 0 else none

/-- `compactDescription` from `mcp-proxy.ts` (list version, explicit
`maxLen`; the source's default is `COMPACT_DESCRIPTION_LENGTH = 120`).
A string of length ≤ maxLen is returned unchanged; otherwise the first
`maxLen` characters are kept, cut back to the last space when its index
exceeds `maxLen * 0.6` (at the default 120 the IEEE-double product is
exactly 72, so the comparison is the exact rational one modelled here),
and a single `'…'` is appended. -/
def compactDescriptionL (maxLen : Nat) (desc : List Char) : List Char :=
  if desc.length ≤ maxLen then desc
  else
    let truncated := desc.take maxLen
    let cut :=
      match lastSpacePos truncated with
      | some i => if 10 * i > 6 * maxLen then truncated.take i else truncated
      | none => truncated
    cut ++ ['…']

/-- `compactDescription` at the default window of 120 characters, on
`String`. -/
def compactDescriptionS (desc : String) : String :=
  ⟨compactDescriptionL 120 desc.data⟩

/-! ## Store (`store.ts`): server configurations -/

/-- `ServerTransport` from `types.ts`. -/
inductive ServerTransport where
  | stdio
  | sse
  | streamableHttp
deriving DecidableEq, Repr

/-- The fields of `ServerConfig` that the store's CRUD logic and the
gateway's session lifecycle inspect (`id`, unique case-insensitive `name`,
`enabled`, immutable `transport`).  Command/url/auth payloads are opaque to
every claim and are not modelled. -/
structure ServerConfig where
  id : String
  name : String
  enabled : Bool
  transport : ServerTransport
deriving DecidableEq, Repr

/-- JS `s.toLowerCase()` on the ASCII range, used for the store's
case-insensitive name comparisons. -/
def lowerS (s : String) : String :=
  ⟨s.data.map asciiToLower⟩

/-- The two error kinds `Store.addServer` can throw. -/
inductive AddServerError where
  | duplicateId
  | duplicateName
deriving DecidableEq, Repr

/-- `Store.addServer`: reject a duplicate `id`, then reject a duplicate
`name` under case-insensitive comparison, else append (`push`). -/
def addServer (servers : List ServerConfig) (server : ServerConfig) :
    Except AddServerError (List ServerConfig) :=
  if servers.any (fun s => s.id = server.id) then
    .error .duplicateId
  else if servers.any (fun s => lowerS s.name = lowerS server.name) then
    .error .duplicateName
  else
    .ok (servers ++ [server])

/-! ## Store (`store.ts`): persisted OAuth state -/

/-- The persisted OAuth token set (`OAuthPersistedState.tokens`). -/
structure OAuthTokens where
  access_token : String
  token_type : String
  expires_in : Option Nat
  scope : Option String
  refresh_token : Option String
deriving DecidableEq, Repr

/-- The persisted OAuth client information
(`OAuthPersistedState.clientInfo`). -/
structure OAuthClientInfo where
  client_id : String
  client_secret : Option String
deriving DecidableEq, Repr

/-- `OAuthPersistedState`: the per-server record inside
`store.data.oauthState`. -/
structure OAuthPersistedState where
  clientInfo : Option OAuthClientInfo
  tokens : Option OAuthTokens
  codeVerifier : Option String
deriving DecidableEq, Repr

/-- A fresh empty per-server OAuth record (`{}` in JS; every optional field
absent). -/
def emptyOAuthState : OAuthPersistedState :=
  { clientInfo := none, tokens := none, codeVerifier := none }

/-- The store's `oauthState` entry for one server id (`undefined` when the
record holds no entry for that id).  Every store OAuth accessor touches
only the entry of the id it is given, so the per-server entry is the
state that the OAuth claims quantify over. -/
abbrev OAuthEntry := Option OAuthPersistedState

/-- `Store.setTokens`: create the entry if missing, then set `tokens`. -/
def storeSetTokens (entry : OAuthEntry) (tokens : OAuthTokens) : OAuthEntry :=
  some { entry.getD emptyOAuthState with tokens := some tokens }

/-- `Store.removeTokens`: delete only `tokens`; a missing entry or missing
tokens is a no-op (the source returns `false` there). -/
def storeRemoveTokens (entry : OAuthEntry) : OAuthEntry :=
  match entry with
  | none => none
  | some st =>
      match st.tokens with
      | none => some st
      | some _ => some { st with tokens := none }

/-- `Store.setCodeVerifier`: create the entry if missing, then set
`codeVerifier`. -/
def storeSetCodeVerifier (entry : OAuthEntry) (v : String) : OAuthEntry :=
  some { entry.getD emptyOAuthState with codeVerifier := some v }

/-- `Store.clearCodeVerifier`: delete `codeVerifier` when the entry exists;
no-op otherwise. -/
def storeClearCodeVerifier (entry : OAuthEntry) : OAuthEntry :=
  match entry with
  | none => none
  | some st => some { st with codeVerifier := none }

/-- `Store.setClientInfo`: create the entry if missing, then set
`clientInfo`. -/
def storeSetClientInfo (entry : OAuthEntry) (info : OAuthClientInfo) :
    OAuthEntry :=
  some { entry.getD emptyOAuthState with clientInfo := some info }

/-- `Store.removeOAuthState`: drop the whole entry. -/
def storeRemoveOAuthState (_ : OAuthEntry) : OAuthEntry := none

/-- The `clientInfo` visible through the store for one server
(`undefined` when the entry or the field is absent). -/
def entryClientInfo (e : OAuthEntry) : Option OAuthClientInfo :=
  e.bind (·.clientInfo)

/-- The `tokens` visible through the store for one server. -/
def entryTokens (e : OAuthEntry) : Option OAuthTokens :=
  e.bind (·.tokens)

/-- The `codeVerifier` visible through the store for one server
(`Store.getCodeVerifier`). -/
def entryCodeVerifier (e : OAuthEntry) : Option String :=
  e.bind (·.codeVerifier)

/-! ## OAuth provider and manager (`oauth.ts`) -/

/-- The state a `GatewayOAuthProvider` owns for its server: the in-memory
`_codeVerifier` field (`""` when unset) together with the store's per-server
OAuth entry. -/
structure ProviderState where
  memVerifier : String
  entry : OAuthEntry
deriving DecidableEq, Repr

/-- The `scope` argument of `invalidateCredentials`. -/
inductive InvalidateScope where
  | all
  | client
  | tokens
  | verifier
deriving DecidableEq, Repr

/-- `GatewayOAuthProvider.invalidateCredentials`, case for case from the
source: `all` removes the store entry and blanks the in-memory verifier;
`client` re-writes the entry without `clientInfo` (via
`getOAuthState`/`setOAuthState`); `tokens` calls `Store.removeTokens`;
`verifier` blanks the in-memory verifier and calls
`Store.clearCodeVerifier`. -/
def invalidateCredentials (scope : InvalidateScope) (p : ProviderState) :
    ProviderState :=
  match scope with
  | .all => { memVerifier := "", entry := storeRemoveOAuthState p.entry }
  | .client =>
      match p.entry with
      | none => p
      | some st => { p with entry := some { st with clientInfo := none } }
  | .tokens => { p with entry := storeRemoveTokens p.entry }
  | .verifier =>
      { memVerifier := "", entry := storeClearCodeVerifier p.entry }

/-- `GatewayOAuthProvider.saveTokens`: persists the exchanged tokens via
`Store.setTokens` (it does not touch the code verifier). -/
def providerSaveTokens (p : ProviderState) (t : OAuthTokens) : ProviderState :=
  { p with entry := storeSetTokens p.entry t }

/-- Store-visible events of the callback leg, used to state temporal
ordering: `saveTokensDone` marks the return of the provider's `saveTokens`,
`verifierCleared` marks `Store.clearCodeVerifier`. -/
inductive CallbackEvent where
  | saveTokensDone
  | verifierCleared
deriving DecidableEq, Repr

/-- Modelled from the spec: the token-exchange half of the SDK's `auth()`
routine that `OAuthManager.handleCallback` awaits (the SDK itself is an
external dependency, not part of this repository).  Per §4.2 step 7 of the
specification, on success the exchange POSTs to the token endpoint and
hands the result tokens to the provider's `saveTokens`; it does not clear
the code verifier. -/
def mcpAuthExchange (p : ProviderState) (t : OAuthTokens) :
    ProviderState × List CallbackEvent :=
  (providerSaveTokens p t, [.saveTokensDone])

/-- `OAuthManager.handleCallback`, success path: await the SDK exchange
(which saves the tokens), and only after it resolves call
`Store.clearCodeVerifier`.  Returns the final state together with the
ordered list of store-visible events. -/
def handleCallback (p : ProviderState) (t : OAuthTokens) :
    ProviderState × List CallbackEvent :=
  let step := mcpAuthExchange p t
  ({ step.1 with entry := storeClearCodeVerifier step.1.entry },
    step.2 ++ [.verifierCleared])

/-! ## Gateway upstream sessions (`gateway.ts`) -/

/-- `ConnectionStatus` from `types.ts`. -/
inductive ConnectionStatus where
  | disconnected
  | connecting
  | connected
  | error
  | awaitingOauth
deriving DecidableEq, Repr

/-- `ToolInfo` (the `inputSchema` JSON blob is opaque to the gateway and
carried as an uninterpreted optional string). -/
structure ToolInfo where
  name : String
  description : Option String
  inputSchema : Option String
deriving DecidableEq, Repr

/-- `ResourceInfo`. -/
structure ResourceInfo where
  uri : String
  name : String
  description : Option String
  mimeType : Option String
deriving DecidableEq, Repr

/-- `PromptInfo` (arguments opaque to every claim, carried as names). -/
structure PromptInfo where
  name : String
  description : Option String
deriving DecidableEq, Repr

/-- `ManagedServer`: the runtime record the gateway keeps per server.
`hasClient`/`hasTransport` model the nullable `client`/`transport` handles,
`reconnectTimer` whether a timer handle is pending. -/
structure ManagedServer where
  config : ServerConfig
  status : ConnectionStatus
  error : Option String
  tools : List ToolInfo
  resources : List ResourceInfo
  prompts : List PromptInfo
  hasClient : Bool
  hasTransport : Bool
  reconnectTimer : Bool
  reconnectAttempts : Nat
  lastConnected : Option Nat
deriving DecidableEq, Repr

/-- `MAX_RECONNECT_ATTEMPTS = 5`. -/
def maxReconnectAttempts : Nat := 5

/-- `BASE_RECONNECT_DELAY_MS = 2000`. -/
def baseReconnectDelayMs : Nat := 2000

/-- `MAX_RECONNECT_DELAY_MS = 30000`. -/
def maxReconnectDelayMs : Nat := 30000

/-- `Gateway.createManagedServer`: fresh record, `disconnected`, empty
capability lists, zero attempts. -/
def createManagedServer (config : ServerConfig) : ManagedServer :=
  { config := config, status := .disconnected, error := none, tools := [],
    resources := [], prompts := [], hasClient := false, hasTransport := false,
    reconnectTimer := false, reconnectAttempts := 0, lastConnected := none }

/-- `Gateway.setStatus`: set `status` and overwrite `error` with the
(optional) message. -/
def setStatus (m : ManagedServer) (status : ConnectionStatus)
    (error : Option String) : ManagedServer :=
  { m with status := status, error := error }

/-- `Gateway.closeConnection`: close and null out client and transport and
reset the three capability lists to empty. -/
def closeConnection (m : ManagedServer) : ManagedServer :=
  { m with
    hasClient := false
    hasTransport := false
    tools := []
    resources := []
    prompts := [] }

/-- `Gateway.scheduleReconnect`.  `jitter` stands for the sampled
`Math.random() * 1000` (a value in `[0, 1000)`); the result carries the
updated record and the delay of the scheduled timer (`none` when no timer
was scheduled).  Beyond `MAX_RECONNECT_ATTEMPTS` the session is moved to a
terminal `error` status and no timer is set. -/
def scheduleReconnect (shutdownRequested : Bool) (jitter : Nat)
    (m : ManagedServer) : ManagedServer × Option Nat :=
  if shutdownRequested then (m, none)
  else if ¬m.config.enabled then (m, none)
  else if m.reconnectAttempts ≥ maxReconnectAttempts then
    (setStatus m .error
      (some "Failed to reconnect after 5 attempts."), none)
  else
    let delay :=
      min (baseReconnectDelayMs * 2 ^ m.reconnectAttempts + jitter)
        maxReconnectDelayMs
    ({ m with
        reconnectAttempts := m.reconnectAttempts + 1
        reconnectTimer := true }, some delay)

/-- The outcome of one connection attempt, abstracting the transport and
handshake I/O of `connectLocalServer`/`connectRemoteServer`: either the MCP
handshake and the three capability list calls succeed, or the SDK surfaces
an auth-related error (`Unauthorized`/`REDIRECT`/`401` substrings), or a
generic error is thrown. -/
inductive ConnectOutcome where
  | success (tools : List ToolInfo) (resources : List ResourceInfo)
      (prompts : List PromptInfo) (now : Nat)
  | authRequired
  | failure (msg : String) (jitter : Nat)
deriving DecidableEq, Repr

/-- `Gateway.connectServer`: return immediately when already `connected` or
`connecting`; otherwise move to `connecting` and run the attempt.  On
success the capability lists are populated while still `connecting`
(`discoverCapabilities`), then the status becomes `connected`, the attempt
counter resets and `lastConnected` is stamped.  An auth-related failure
moves to `awaitingOauth`; any other failure moves to `error` and calls
`scheduleReconnect`. -/
def connectServer (shutdownRequested : Bool) (m : ManagedServer)
    (outcome : ConnectOutcome) : ManagedServer :=
  if m.status = .connected then m
  else if m.status = .connecting then m
  else
    let m1 := setStatus m .connecting none
    match outcome with
    | .success tools resources prompts now =>
        let m2 := { m1 with hasClient := true, hasTransport := true }
        let m3 := { m2 with
          tools := tools
          resources := resources
          prompts := prompts }
        let m4 := setStatus m3 .connected none
        { m4 with lastConnected := some now, reconnectAttempts := 0 }
    | .authRequired => setStatus m1 .awaitingOauth none
    | .failure msg jitter =>
        let m2 := setStatus m1 .error (some msg)
        (scheduleReconnect shutdownRequested jitter m2).1

/-- `Gateway.disconnectServer`: cancel any pending reconnect timer, zero
the attempt counter, `closeConnection`, and set `disconnected`. -/
def disconnectServer (m : ManagedServer) : ManagedServer :=
  let m1 := { m with reconnectTimer := false, reconnectAttempts := 0 }
  setStatus (closeConnection m1) .disconnected none

/-- `Gateway.reconnectServer`: zero the counter, `disconnectServer`, then
`connectServer`. -/
def reconnectServer (shutdownRequested : Bool) (m : ManagedServer)
    (outcome : ConnectOutcome) : ManagedServer :=
  connectServer shutdownRequested
    (disconnectServer { m with reconnectAttempts := 0 }) outcome

/-- The `transport.onclose` handler installed by
`connectLocalServer`/`connectRemoteServer`: only acts when the session is
`connected`; it sets `disconnected` and, unless shutting down or disabled,
schedules a reconnect.  It does NOT touch the capability lists. -/
def onTransportClose (shutdownRequested : Bool) (jitter : Nat)
    (m : ManagedServer) : ManagedServer :=
  if m.status = .connected then
    let m1 := setStatus m .disconnected none
    if ¬shutdownRequested ∧ m1.config.enabled then
      (scheduleReconnect shutdownRequested jitter m1).1
    else m1
  else m

/-- The `transport.onerror` handler: unconditionally sets status `error`
with the stringified error; the capability lists are not touched. -/
def onTransportError (m : ManagedServer) (msg : String) : ManagedServer :=
  setStatus m .error (some msg)

/-- `Gateway.onOAuthComplete`: in `awaitingOauth`, `disconnected` or
`error`, close the stale transport, reset to `disconnected`, and connect. -/
def onOAuthComplete (shutdownRequested : Bool) (m : ManagedServer)
    (outcome : ConnectOutcome) : ManagedServer :=
  if m.status = .awaitingOauth ∨ m.status = .disconnected ∨
      m.status = .error then
    connectServer shutdownRequested
      (setStatus (closeConnection m) .disconnected none) outcome
  else m

/-- The reachable states of one managed session: starting from
`createManagedServer`, closed under every lifecycle operation of the
gateway. -/
inductive ReachableSession : ManagedServer → Prop where
  | init (config : ServerConfig) :
      ReachableSession (createManagedServer config)
  | connect {m} (sh : Bool) (o : ConnectOutcome) :
      ReachableSession m → ReachableSession (connectServer sh m o)
  | disconnect {m} :
      ReachableSession m → ReachableSession (disconnectServer m)
  | reconnect {m} (sh : Bool) (o : ConnectOutcome) :
      ReachableSession m → ReachableSession (reconnectServer sh m o)
  | transportClose {m} (sh : Bool) (j : Nat) :
      ReachableSession m → ReachableSession (onTransportClose sh j m)
  | transportError {m} (msg : String) :
      ReachableSession m → ReachableSession (onTransportError m msg)
  | oauthComplete {m} (sh : Bool) (o : ConnectOutcome) :
      ReachableSession m → ReachableSession (onOAuthComplete sh m o)

/-- `Gateway.getAllTools`: every tool of every CONNECTED session, annotated
with the owning server's id and name. -/
def getAllTools (servers : List ManagedServer) :
    List (ToolInfo × String × String) :=
  servers.foldr
    (fun m acc =>
      if m.status = .connected then
        m.tools.map (fun t => (t, m.config.id, m.config.name)) ++ acc
      else acc) []

/-- `Gateway.getAllResources`, analogously. -/
def getAllResources (servers : List ManagedServer) :
    List (ResourceInfo × String × String) :=
  servers.foldr
    (fun m acc =>
      if m.status = .connected then
        m.resources.map (fun r => (r, m.config.id, m.config.name)) ++ acc
      else acc) []

/-- `Gateway.getAllPrompts`, analogously. -/
def getAllPrompts (servers : List ManagedServer) :
    List (PromptInfo × String × String) :=
  servers.foldr
    (fun m acc =>
      if m.status = .connected then
        m.prompts.map (fun p => (p, m.config.id, m.config.name)) ++ acc
      else acc) []

/-! ## Downstream proxy (`mcp-proxy.ts`) -/

/-- `PrefixedTool`: an aggregated tool annotated with its prefixed name and
owning server. -/
structure PrefixedTool where
  name : String
  description : Option String
  inputSchema : Option String
  prefixedName : String
  originalName : String
  serverId : String
  serverName : String
deriving DecidableEq, Repr

/-- `PrefixedResource` (URIs are exposed unmodified). -/
structure PrefixedResource where
  uri : String
  name : String
  description : Option String
  mimeType : Option String
  prefixedUri : String
  originalUri : String
  serverId : String
  serverName : String
deriving DecidableEq, Repr

/-- `aggregateTools`: `gateway.getAllTools()` with prefixed names. -/
def aggregateTools (servers : List ManagedServer) : List PrefixedTool :=
  (getAllTools servers).map (fun t =>
    { name := t.1.name, description := t.1.description,
      inputSchema := t.1.inputSchema,
      prefixedName := prefixNameS t.2.2 t.1.name,
      originalName := t.1.name, serverId := t.2.1, serverName := t.2.2 })

/-- `aggregateResources`: `gateway.getAllResources()`; the original URI is
kept as both `prefixedUri` and `originalUri`. -/
def aggregateResources (servers : List ManagedServer) :
    List PrefixedResource :=
  (getAllResources servers).map (fun r =>
    { uri := r.1.uri, name := r.1.name, description := r.1.description,
      mimeType := r.1.mimeType, prefixedUri := r.1.uri,
      originalUri := r.1.uri, serverId := r.2.1, serverName := r.2.2 })

/-- A downstream MCP content item (the handlers only ever build `text`
items). -/
inductive ContentItem where
  | text (s : String)
deriving DecidableEq, Repr

/-- The value a `tools/call` handler returns downstream. -/
structure CallToolResult where
  content : List ContentItem
  isError : Option Bool
deriving DecidableEq, Repr

/-- The two `McpError` codes the proxy handlers raise. -/
inductive McpErrorCode where
  | invalidParams
  | internalError
deriving DecidableEq, Repr

/-- The names of the three always-available gateway meta-tools
(`GATEWAY_META_TOOLS`). -/
def metaToolNames : List String :=
  ["gateway__search_tools", "gateway__list_servers",
    "gateway__get_server_tools"]

/-- `resolveToolCall`: a meta-tool name resolves to no upstream; otherwise
parse at the first `"__"` and find the aggregated tool whose normalized
server prefix and original name match. -/
def resolveToolCall (tools : List PrefixedTool) (prefixedName : String) :
    Option (String × String) :=
  if prefixedName ∈ metaToolNames then none
  else
    match parsePrefixedNameS prefixedName with
    | none => none
    | some parsed =>
        (tools.find? (fun t =>
          normalizePrefixS t.serverName == parsed.1 &&
            t.originalName == parsed.2)).map
          (fun t => (t.serverId, t.originalName))

/-- JS `String.prototype.includes`. -/
def strIncludes (hay needle : String) : Bool :=
  decide (needle.data <:+: hay.data)

/-- `query.split(/\s+/).filter(Boolean)`: the whitespace-separated words of
the query. -/
def queryWords (q : String) : List String :=
  (q.split (fun c => c.isWhitespace)).filter (fun w => w ≠ "")

/-- Stands in for `JSON.stringify(x, null, 2)` in meta-tool text payloads:
a concrete injective rendering of the data (no claim depends on the exact
text of these payloads). -/
def jsonStringify {α : Type} [Repr α] (a : α) : String :=
  reprStr a

/-- The `arguments` record of a meta-tool call
(`Record<string, unknown>`, read as `args.query`, `args.server`,
`args.limit`). -/
structure MetaArgs where
  query : Option String
  server : Option String
  limit : Option Nat
deriving DecidableEq, Repr

/-- `handleSearchTools`: case-insensitive multi-word search over
`originalName + " " + prefixedName + " " + description`, optional server
filter via substring of the normalized prefix, capped at `limit`
(default 20). -/
def handleSearchTools (tools : List PrefixedTool) (args : MetaArgs) :
    CallToolResult :=
  let query := lowerS (args.query.getD "")
  let serverFilter := args.server.map lowerS
  let limit := args.limit.getD 20
  if query = "" then
    { content := [.text "Error: 'query' parameter is required."],
      isError := some true }
  else
    let matched := (tools.filter (fun t =>
      (match serverFilter with
        | some f => strIncludes (normalizePrefixS t.serverName) f
        | none => true) &&
      (queryWords query).all (fun w =>
        strIncludes
          (lowerS (t.originalName ++ " " ++ t.prefixedName ++ " " ++
            t.description.getD "")) w))).take limit
    if matched = [] then
      { content := [.text ("No tools found matching \"" ++ query ++ "\"" ++
          (match serverFilter with
            | some f => " on server \"" ++ f ++ "\""
            | none => "") ++
          ". Try broader keywords or use gateway__list_servers to see available servers.")],
        isError := none }
    else
      { content := [.text ("Found " ++ toString matched.length ++
          " tool(s) matching \"" ++ query ++ "\":\n\n" ++
          jsonStringify (matched.map (fun t =>
            (t.prefixedName, t.serverName,
              t.description.getD "(no description)"))))],
        isError := none }

/-- One row of the `gateway__list_servers` payload. -/
structure MetaServerRow where
  name : String
  pre : String
  status : ConnectionStatus
  transport : ServerTransport
  tools : Nat
  resources : Nat
  prompts : Nat
deriving DecidableEq, Repr

/-- `handleListServers`: a one-line summary plus one row per registered
server. -/
def handleListServers (servers : List ManagedServer) : CallToolResult :=
  let rows := servers.map (fun m =>
    ({ name := m.config.name, pre := normalizePrefixS m.config.name,
       status := m.status, transport := m.config.transport,
       tools := m.tools.length, resources := m.resources.length,
       prompts := m.prompts.length } : MetaServerRow))
  let connected := rows.filter (fun r => r.status = .connected)
  { content := [.text (toString connected.length ++ " of " ++
      toString rows.length ++ " server(s) connected.\n\n" ++
      "Use gateway__search_tools to find tools by keyword, or " ++
      "gateway__get_server_tools with a server prefix to explore a specific server." ++
      "\n\n" ++ jsonStringify rows)],
    isError := none }

/-- Deduplicate keeping the first occurrence (JS object key insertion
order). -/
def dedupKeepFirst : List String → List String
  | [] => []
  | a :: l => a :: (dedupKeepFirst l).filter (fun b => b ≠ a)

/-- `handleGetServerTools`: every tool of every server whose normalized
prefix contains the argument, grouped by server name. -/
def handleGetServerTools (tools : List PrefixedTool) (args : MetaArgs) :
    CallToolResult :=
  let serverFilter := lowerS (args.server.getD "")
  if serverFilter = "" then
    { content := [.text ("Error: 'server' parameter is required. " ++
        "Use gateway__list_servers to see available servers.")],
      isError := some true }
  else
    let matched := tools.filter (fun t =>
      strIncludes (normalizePrefixS t.serverName) serverFilter)
    if matched = [] then
      { content := [.text ("No tools found for server \"" ++ serverFilter ++
          "\". Use gateway__list_servers to see available servers.")],
        isError := none }
    else
      let grouped := (dedupKeepFirst (matched.map (·.serverName))).map
        (fun n => (n, (matched.filter (·.serverName = n)).map (fun t =>
          (t.prefixedName, t.description.getD "(no description)"))))
      { content := [.text ("Found " ++ toString matched.length ++
          " tool(s) for \"" ++ serverFilter ++ "\":\n\n" ++
          jsonStringify grouped)],
        isError := none }

/-- The reply an upstream `callTool` delegation produced
(`result.content` and `result.isError` as read by the handler). -/
structure UpstreamCallResult where
  content : Option (List ContentItem)
  isError : Option Bool
deriving DecidableEq, Repr

/-- The `tools/call` request handler: meta-tools first; then resolve the
prefixed name — an unresolvable name yields an in-band error RESULT
(`isError: true`), never a thrown `McpError`; a resolved name delegates
upstream, translating a thrown upstream error into an in-band error
result as well.  `upstream` abstracts the awaited
`gateway.callTool(...)`. -/
def callToolHandler (servers : List ManagedServer) (name : String)
    (args : MetaArgs) (upstream : Except String UpstreamCallResult) :
    Except (McpErrorCode × String) CallToolResult :=
  let tools := aggregateTools servers
  if name = "gateway__search_tools" then .ok (handleSearchTools tools args)
  else if name = "gateway__list_servers" then .ok (handleListServers servers)
  else if name = "gateway__get_server_tools" then
    .ok (handleGetServerTools tools args)
  else
    match resolveToolCall tools name with
    | none =>
        let msg := "Error: Tool \"" ++ name ++
          "\" not found. Tool names use the format " ++
          "\"serverprefix__toolname\". Use gateway__search_tools to discover tools."
        .ok { content := [.text msg], isError := some true }
    | some _ =>
        match upstream with
        | .ok r =>
            .ok { content := r.content.getD [.text (jsonStringify r)]
                  isError := r.isError }
        | .error msg =>
            .ok { content := [.text ("Error: " ++ msg)]
                  isError := some true }

/-- The `resources/read` request handler: a URI absent from the aggregated
resource list raises `McpError(InvalidParams)`; a failing upstream
delegation raises `McpError(InternalError)`.  `upstream` abstracts the
awaited `gateway.readResource(...)`. -/
def readResourceHandler (servers : List ManagedServer) (uri : String)
    (upstream : Except String (List ContentItem)) :
    Except (McpErrorCode × String) (List ContentItem) :=
  let resources := aggregateResources servers
  match resources.find? (fun r => r.originalUri == uri) with
  | none => .error (.invalidParams, "Resource not found: " ++ uri)
  | some _ =>
      match upstream with
      | .ok contents => .ok contents
      | .error msg =>
          .error (.internalError,
            "Failed to read resource \"" ++ uri ++ "\": " ++ msg)

/-! ## Request log (`request-log.ts`) -/

/-- `RequestType`. -/
inductive RequestType where
  | tool
  | resource
  | prompt
deriving DecidableEq, Repr

/-- The `status` of a request-log entry. -/
inductive LogStatus where
  | pending
  | success
  | error
deriving DecidableEq, Repr

/-- The `content` of a logged response (`unknown` in the source; the two
shapes the error-message extraction inspects are a plain string and an
array of text items). -/
inductive LogContent where
  | str (s : String)
  | items (l : List ContentItem)
deriving DecidableEq, Repr

/-- `RequestLogEntry`.  Timestamps are epoch milliseconds (`Date.now()`),
supplied explicitly by the caller of each operation. -/
structure RequestLogEntry where
  id : String
  timestamp : Nat
  type : RequestType
  method : String
  originalMethod : Option String
  serverId : String
  serverName : String
  response : Option (LogContent × Option Bool)
  durationMs : Option Nat
  status : LogStatus
  errorMessage : Option String
deriving DecidableEq, Repr

/-- The mutable state of a `RequestLogStore`: the newest-first `logs`
array (bounded by `maxSize`), and the `pendingRequests` map (insertion
order). -/
structure RequestLogState where
  logs : List RequestLogEntry
  pending : List (String × RequestLogEntry)
  maxSize : Nat
deriving DecidableEq, Repr

/-- `addEntry`: unshift newest-first and trim to `maxSize`. -/
def logAddEntry (st : RequestLogState) (e : RequestLogEntry) :
    RequestLogState :=
  { st with logs := (e :: st.logs).take st.maxSize }

/-- `updateEntry`: replace the first stored entry with the same id (the
source's `findIndex` + assignment); no entry matches, no change. -/
def logUpdateEntry : List RequestLogEntry → RequestLogEntry →
    List RequestLogEntry
  | [], _ => []
  | e :: rest, u =>
      if e.id = u.id then u :: rest else e :: logUpdateEntry rest u

/-- `RequestLogStore.start`: record a `pending` entry (id and timestamp are
the sampled `randomUUID()`/`Date.now()`, passed explicitly). -/
def logStart (st : RequestLogState) (id : String) (now : Nat)
    (type : RequestType) (method : String) (originalMethod : Option String)
    (serverId serverName : String) : RequestLogState :=
  let entry : RequestLogEntry :=
    { id := id, timestamp := now, type := type, method := method,
      originalMethod := originalMethod, serverId := serverId,
      serverName := serverName, response := none, durationMs := none,
      status := .pending, errorMessage := none }
  logAddEntry { st with pending := st.pending ++ [(id, entry)] } entry

/-- The `errorMessage` extraction in `complete`: a plain string, or the
`text` of the first array item when truthy (non-empty). -/
def extractErrorMessage (entry : RequestLogEntry) (content : LogContent)
    (isError : Option Bool) : Option String :=
  if isError.getD false then
    match content with
    | .str s => some s
    | .items (.text t :: _) => if t ≠ "" then some t else entry.errorMessage
    | .items [] => entry.errorMessage
  else entry.errorMessage

/-- `RequestLogStore.complete`: no pending entry for `id` means an
immediate return with nothing changed; otherwise stamp duration, status,
response and error message, remove from pending, and update the stored
entry. -/
def logComplete (st : RequestLogState) (id : String) (content : LogContent)
    (isError : Option Bool) (now : Nat) : RequestLogState :=
  match st.pending.lookup id with
  | none => st
  | some entry =>
      let updated := { entry with
        durationMs := some (now - entry.timestamp)
        status := if isError.getD false then .error else .success
        response := some (content, isError)
        errorMessage := extractErrorMessage entry content isError }
      { st with
        pending := st.pending.eraseP (fun kv => kv.1 == id)
        logs := logUpdateEntry st.logs updated }

/-- `RequestLogStore.fail`: no pending entry for `id` means an immediate
return with nothing changed; otherwise mark the entry as `error` with the
message and a synthesized error response. -/
def logFail (st : RequestLogState) (id : String) (errorMessage : String)
    (now : Nat) : RequestLogState :=
  match st.pending.lookup id with
  | none => st
  | some entry =>
      let updated := { entry with
        durationMs := some (now - entry.timestamp)
        status := LogStatus.error
        errorMessage := some errorMessage
        response := some (.items [.text errorMessage], some true) }
      { st with
        pending := st.pending.eraseP (fun kv => kv.1 == id)
        logs := logUpdateEntry st.logs updated }

/-! ## Concrete fixtures used by witnesses and counterexamples -/

/-- A sample tool as reported by an upstream. -/
def demoTool : ToolInfo :=
  { name := "t1", description := none, inputSchema := none }

/-- A sample resource as reported by an upstream. -/
def demoResource : ResourceInfo :=
  { uri := "res://a", name := "r", description := none, mimeType := none }

/-- A sample server configuration. -/
def demoConfig : ServerConfig :=
  { id := "srv1", name := "Demo", enabled := true, transport := .stdio }

/-- A connected session exposing `demoTool` and `demoResource`. -/
def demoConnected : ManagedServer :=
  { createManagedServer demoConfig with
    status := .connected
    tools := [demoTool]
    resources := [demoResource] }

/-- A sample token set. -/
def demoTokens : OAuthTokens :=
  { access_token := "acc", token_type := "Bearer", expires_in := some 3600,
    scope := none, refresh_token := some "ref" }

/-- A provider state with an authorization in flight (a stored PKCE
verifier and no tokens yet). -/
def demoInFlight : ProviderState :=
  { memVerifier := "ver",
    entry := some { clientInfo := some { client_id := "cid", client_secret := none },
                    tokens := none, codeVerifier := some "ver" } }

/-! # Theorems -/

/-! ## C8 — `connect()` idempotence -/

/-- C8: `connect()` is idempotent.  When the session's status is already
`connecting` or `connected`, a second `connectServer` call returns the
state unchanged — status, transport, client and the three capability lists
included — whatever the outcome of the (never started) attempt would have
been. -/
theorem C8_connect_idempotent (sh : Bool) (m : ManagedServer)
    (o : ConnectOutcome)
    (h : m.status = .connecting ∨ m.status = .connected) :
    connectServer sh m o = m := by
  rcases h with h | h <;> simp [connectServer, h]

/-- C8 witness: a concrete connected session is returned unchanged by a
second connect. -/
theorem C8_witness :
    connectServer false
        { createManagedServer demoConfig with status := .connected }
        (.failure "boom" 0) =
      { createManagedServer demoConfig with status := .connected } :=
  C8_connect_idempotent false _ _ (Or.inr rfl)

/-! ## C9 — `invalidateCredentials` clears exactly the requested subset -/

/-- C9: `invalidateCredentials(scope)` clears exactly the requested subset
of the persisted OAuth state: `tokens` removes the tokens and leaves
client info and verifier unchanged; `client` removes only the client info;
`verifier` clears only the code verifier; `all` drops the whole per-server
record. -/
theorem C9_invalidate_exact (p : ProviderState) :
    (entryTokens (invalidateCredentials .tokens p).entry = none ∧
      entryClientInfo (invalidateCredentials .tokens p).entry =
        entryClientInfo p.entry ∧
      entryCodeVerifier (invalidateCredentials .tokens p).entry =
        entryCodeVerifier p.entry ∧
      (invalidateCredentials .tokens p).memVerifier = p.memVerifier) ∧
    (entryClientInfo (invalidateCredentials .client p).entry = none ∧
      entryTokens (invalidateCredentials .client p).entry =
        entryTokens p.entry ∧
      entryCodeVerifier (invalidateCredentials .client p).entry =
        entryCodeVerifier p.entry ∧
      (invalidateCredentials .client p).memVerifier = p.memVerifier) ∧
    (entryCodeVerifier (invalidateCredentials .verifier p).entry = none ∧
      entryClientInfo (invalidateCredentials .verifier p).entry =
        entryClientInfo p.entry ∧
      entryTokens (invalidateCredentials .verifier p).entry =
        entryTokens p.entry) ∧
    ((invalidateCredentials .all p).entry = none ∧
      (invalidateCredentials .all p).memVerifier = "") := by
  obtain ⟨mem, entry⟩ := p
  cases entry with
  | none =>
      simp [invalidateCredentials, storeRemoveTokens, storeClearCodeVerifier,
        storeRemoveOAuthState, entryTokens, entryClientInfo,
        entryCodeVerifier]
  | some st =>
      obtain ⟨ci, tk, cv⟩ := st
      cases tk <;>
        simp [invalidateCredentials, storeRemoveTokens,
          storeClearCodeVerifier, storeRemoveOAuthState, entryTokens,
          entryClientInfo, entryCodeVerifier]

/-! ## C10 — `complete`/`fail` on a non-pending id -/

/-- C10: for an id with no pending entry (never started, already completed
or failed, or unknown), `complete` and `fail` leave the request-log state
unchanged: no entry is added, removed or modified. -/
theorem C10_no_pending_noop (st : RequestLogState) (id : String)
    (content : LogContent) (isError : Option Bool) (errMsg : String)
    (now : Nat) (h : st.pending.lookup id = none) :
    logComplete st id content isError now = st ∧
      logFail st id errMsg now = st := by
  refine ⟨?_, ?_⟩ <;> simp [logComplete, logFail, h]

/-- C10 witness: both operations are no-ops on a concrete store with no
pending entry for the id. -/
theorem C10_witness :
    logComplete { logs := [], pending := [], maxSize := 500 } "x"
        (.str "r") none 7 = { logs := [], pending := [], maxSize := 500 } ∧
      logFail { logs := [], pending := [], maxSize := 500 } "x" "boom" 7 =
        { logs := [], pending := [], maxSize := 500 } :=
  C10_no_pending_noop _ "x" _ none "boom" 7 rfl

/-! ## C7 — verifier clearing versus `saveTokens` -/

/-- C7 as stated fails on the code: on the concrete successful callback
the store-visible event order is `saveTokens` first, `clearCodeVerifier`
second, so the verifier is NOT cleared before the `saveTokens` call
returns. -/
theorem C7_counterexample :
    (handleCallback demoInFlight demoTokens).2 =
      [CallbackEvent.saveTokensDone, CallbackEvent.verifierCleared] ∧
    ¬ ((handleCallback demoInFlight demoTokens).2.indexOf
          CallbackEvent.verifierCleared <
        (handleCallback demoInFlight demoTokens).2.indexOf
          CallbackEvent.saveTokensDone) := by
  decide

/-- C7 amended: in every successful callback the PKCE verifier is cleared
from the store AFTER the `saveTokens` call returns and before
`handleCallback` itself returns: the event trace is exactly
`[saveTokensDone, verifierCleared]`, and the final store entry holds the
exchanged tokens with no code verifier. -/
theorem C7_amended (p : ProviderState) (t : OAuthTokens) :
    (handleCallback p t).2 =
      [CallbackEvent.saveTokensDone, CallbackEvent.verifierCleared] ∧
    (handleCallback p t).1.entry =
      some ⟨entryClientInfo p.entry, some t, none⟩ := by
  cases h : p.entry <;>
    simp [handleCallback, mcpAuthExchange, providerSaveTokens,
      storeSetTokens, storeClearCodeVerifier, entryClientInfo,
      emptyOAuthState, h]

/-! ## C1 — store-level uniqueness of names versus normalized prefixes -/

/-- C1 as stated fails on the code: `addServer` accepts `"Foo-Bar"` next to
an existing `"Foo Bar"` (no `DuplicateName` error) even though both names
normalize to the non-empty prefix `foo_bar`, and it also accepts a
configuration whose normalized prefix is empty. -/
theorem C1_counterexample :
    addServer [⟨"1", "Foo Bar", true, .stdio⟩] ⟨"2", "Foo-Bar", true, .stdio⟩ =
      Except.ok [⟨"1", "Foo Bar", true, .stdio⟩,
        ⟨"2", "Foo-Bar", true, .stdio⟩] ∧
    normalizePrefixS "Foo Bar" = normalizePrefixS "Foo-Bar" ∧
    normalizePrefixS "Foo-Bar" ≠ "" ∧
    addServer ([] : List ServerConfig) ⟨"3", "!!!", true, .stdio⟩ =
      Except.ok [⟨"3", "!!!", true, .stdio⟩] ∧
    normalizePrefixS "!!!" = "" := by
  refine ⟨rfl, by decide, by decide, rfl, by decide⟩

/-- C1 amended: the store enforces uniqueness of RAW names compared
case-insensitively, not of normalized prefixes: `addServer` succeeds
exactly when no registered server shares the new id or the lower-cased
name, it appends the new configuration, and it preserves pairwise
distinctness of lower-cased names. -/
theorem C1_amended (servers : List ServerConfig) (cfg : ServerConfig) :
    ((∃ l', addServer servers cfg = Except.ok l') ↔
      ∀ s ∈ servers, s.id ≠ cfg.id ∧ lowerS s.name ≠ lowerS cfg.name) ∧
    ∀ l', addServer servers cfg = Except.ok l' →
      l' = servers ++ [cfg] ∧
      (servers.Pairwise (fun a b => lowerS a.name ≠ lowerS b.name) →
        l'.Pairwise (fun a b => lowerS a.name ≠ lowerS b.name)) := by
  by_cases h1 : servers.any (fun s => s.id = cfg.id)
  · rw [List.any_eq_true] at h1
    obtain ⟨s, hs, hid⟩ := h1
    simp only [decide_eq_true_eq] at hid
    constructor
    · constructor
      · rintro ⟨l', hl⟩
        rw [addServer, if_pos (by rw [List.any_eq_true]; exact ⟨s, hs, by simpa⟩)] at hl
        exact absurd hl (by simp)
      · intro hall
        exact absurd hid (hall s hs).1
    · intro l' hl
      rw [addServer, if_pos (by rw [List.any_eq_true]; exact ⟨s, hs, by simpa⟩)] at hl
      exact absurd hl (by simp)
  · by_cases h2 : servers.any (fun s => lowerS s.name = lowerS cfg.name)
    · rw [List.any_eq_true] at h2
      obtain ⟨s, hs, hnm⟩ := h2
      simp only [decide_eq_true_eq] at hnm
      have hrw : addServer servers cfg = Except.error .duplicateName := by
        rw [addServer, if_neg (by simpa using h1),
          if_pos (by rw [List.any_eq_true]; exact ⟨s, hs, by simpa⟩)]
      constructor
      · constructor
        · rintro ⟨l', hl⟩
          rw [hrw] at hl
          exact absurd hl (by simp)
        · intro hall
          exact absurd hnm (hall s hs).2
      · intro l' hl
        rw [hrw] at hl
        exact absurd hl (by simp)
    · have hrw : addServer servers cfg = Except.ok (servers ++ [cfg]) := by
        rw [addServer, if_neg (by simpa using h1), if_neg (by simpa using h2)]
      rw [List.any_eq_true] at h1 h2
      push_neg at h1 h2
      constructor
      · constructor
        · intro _ s hs
          exact ⟨by simpa using h1 s hs, by simpa using h2 s hs⟩
        · intro _
          exact ⟨servers ++ [cfg], hrw⟩
      · intro l' hl
        rw [hrw] at hl
        injection hl with hl
        subst hl
        refine ⟨rfl, fun hp => ?_⟩
        rw [List.pairwise_append]
        refine ⟨hp, List.pairwise_singleton _ _, fun a ha b hb => ?_⟩
        rw [List.mem_singleton] at hb
        subst hb
        simpa using h2 a ha

/-- C1 amended witness: adding a server with a fresh id and a fresh
case-insensitive name succeeds on a concrete store. -/
theorem C1_amended_witness :
    ∃ l', addServer [⟨"1", "Foo Bar", true, .stdio⟩]
      ⟨"2", "Beta", true, .stdio⟩ = Except.ok l' :=
  (C1_amended _ _).1.mpr (by decide)

/-! ## C2 — capability lists versus connection status -/

/-- C2 as stated fails on the code: after a transport loss (`onclose`)
from `connected`, the session is `disconnected` but its `tools` list is
NOT emptied; the state is reachable by connect-then-transport-loss. -/
theorem C2_counterexample :
    ReachableSession (onTransportClose false 0
      (connectServer false (createManagedServer demoConfig)
        (.success [demoTool] [] [] 0))) ∧
    (onTransportClose false 0
      (connectServer false (createManagedServer demoConfig)
        (.success [demoTool] [] [] 0))).status ≠ .connected ∧
    (onTransportClose false 0
      (connectServer false (createManagedServer demoConfig)
        (.success [demoTool] [] [] 0))).tools ≠ [] := by
  refine ⟨.transportClose false 0 (.connect false _ (.init demoConfig)),
    by decide, by decide⟩

/-- `getAllTools` on a cons: the head server contributes its tools exactly
when it is connected. -/
theorem getAllTools_cons (m : ManagedServer) (rest : List ManagedServer) :
    getAllTools (m :: rest) =
      (if m.status = .connected then
        m.tools.map (fun t => (t, m.config.id, m.config.name)) else []) ++
        getAllTools rest := by
  by_cases h : m.status = .connected <;> simp [getAllTools, h]

/-- `getAllResources` on a cons. -/
theorem getAllResources_cons (m : ManagedServer)
    (rest : List ManagedServer) :
    getAllResources (m :: rest) =
      (if m.status = .connected then
        m.resources.map (fun r => (r, m.config.id, m.config.name)) else []) ++
        getAllResources rest := by
  by_cases h : m.status = .connected <;> simp [getAllResources, h]

/-- `getAllPrompts` on a cons. -/
theorem getAllPrompts_cons (m : ManagedServer) (rest : List ManagedServer) :
    getAllPrompts (m :: rest) =
      (if m.status = .connected then
        m.prompts.map (fun p => (p, m.config.id, m.config.name)) else []) ++
        getAllPrompts rest := by
  by_cases h : m.status = .connected <;> simp [getAllPrompts, h]

/-- C2 amended: only the EXPLICIT disconnect path
(`disconnectServer`/`closeConnection`) empties the capability lists (and
leaves the session `disconnected`); transport loss and transport error
leave the lists untouched.  However the gateway's aggregation queries draw
exclusively from sessions whose status is `connected`, so a non-connected
session never contributes tools, resources or prompts downstream. -/
theorem C2_amended :
    (∀ m : ManagedServer,
      (disconnectServer m).tools = [] ∧
      (disconnectServer m).resources = [] ∧
      (disconnectServer m).prompts = [] ∧
      (disconnectServer m).status = .disconnected) ∧
    (∀ m : ManagedServer,
      (closeConnection m).tools = [] ∧
      (closeConnection m).resources = [] ∧
      (closeConnection m).prompts = []) ∧
    ∀ servers : List ManagedServer,
      getAllTools servers =
        getAllTools (servers.filter (fun m => m.status == .connected)) ∧
      getAllResources servers =
        getAllResources (servers.filter (fun m => m.status == .connected)) ∧
      getAllPrompts servers =
        getAllPrompts (servers.filter (fun m => m.status == .connected)) := by
  refine ⟨fun m => by simp [disconnectServer, closeConnection, setStatus],
    fun m => by simp [closeConnection], fun servers => ?_⟩
  induction servers with
  | nil => exact ⟨rfl, rfl, rfl⟩
  | cons m rest ih =>
      by_cases h : m.status = .connected
      · simpa [List.filter_cons, h, getAllTools_cons, getAllResources_cons,
          getAllPrompts_cons] using ih
      · simpa [List.filter_cons, h, getAllTools_cons, getAllResources_cons,
          getAllPrompts_cons] using ih

/-! ## C5 — reconnect backoff policy -/

/-- C5 as stated fails on the code: the attempt counter is not reset ONLY
by a manual `reconnect()` — a plain `disconnectServer` also resets it (as
does a successful connection).  Concretely, after one failed attempt the
counter is 1, and `disconnectServer` brings it back to 0. -/
theorem C5_counterexample :
    ReachableSession (connectServer false (createManagedServer demoConfig)
      (.failure "boom" 0)) ∧
    (connectServer false (createManagedServer demoConfig)
      (.failure "boom" 0)).reconnectAttempts = 1 ∧
    (disconnectServer (connectServer false (createManagedServer demoConfig)
      (.failure "boom" 0))).reconnectAttempts = 0 := by
  refine ⟨.connect false _ (.init demoConfig), by decide, by decide⟩

/-- C5 amended: whenever a reconnect timer is scheduled its delay is
exactly `min(30000 ms, 2000 ms · 2^attempts + jitter)` — hence never above
30 s; once 5 consecutive failures have accumulated on an enabled session
no further timer is scheduled and the session moves to a terminal `error`
status; the counter is reset by a manual `reconnect()` by way of
`disconnectServer` — which, like a successful connection, also resets
it. -/
theorem C5_amended (m : ManagedServer) (jitter d : Nat) :
    ((scheduleReconnect false jitter m).2 = some d →
      d = min 30000 (2000 * 2 ^ m.reconnectAttempts + jitter) ∧ d ≤ 30000) ∧
    (m.config.enabled = true → 5 ≤ m.reconnectAttempts →
      (scheduleReconnect false jitter m).2 = none ∧
      (scheduleReconnect false jitter m).1.status = .error ∧
      (scheduleReconnect false jitter m).1.reconnectTimer =
        m.reconnectTimer) ∧
    (disconnectServer m).reconnectAttempts = 0 := by
  refine ⟨?_, ?_, by simp [disconnectServer, closeConnection, setStatus]⟩
  · intro h
    by_cases he : m.config.enabled
    · by_cases ha : m.reconnectAttempts ≥ 5
      · simp [scheduleReconnect, he, ha, maxReconnectAttempts] at h
      · simp [scheduleReconnect, he, ha, maxReconnectAttempts,
          baseReconnectDelayMs, maxReconnectDelayMs] at h
        refine ⟨by rw [← h, Nat.min_comm], by rw [← h]; exact Nat.min_le_right _ _⟩
    · simp [scheduleReconnect, he] at h
  · intro he ha
    simp [scheduleReconnect, he, ha, maxReconnectAttempts, setStatus]

/-- C5 amended witness: on an enabled session with one recorded failure a
timer is scheduled with delay `min(30000, 2000·2¹ + 500) = 4500`; on a
session with five failures the error branch is taken. -/
theorem C5_amended_witness :
    ((4500 : Nat) = min 30000
        (2000 * 2 ^ (connectServer false (createManagedServer demoConfig)
          (.failure "boom" 0)).reconnectAttempts + 500) ∧
      (4500 : Nat) ≤ 30000) ∧
    (scheduleReconnect false 0
        { createManagedServer demoConfig with reconnectAttempts := 5 }).2 =
      none :=
  ⟨(C5_amended _ 500 4500).1 (by decide),
    ((C5_amended { createManagedServer demoConfig with
        reconnectAttempts := 5 } 0 0).2.1 (by decide) (by decide)).1⟩

/-! ## C6 — description compaction -/

/-- C4: a `tools/call` whose name is neither a meta-tool nor resolvable to
an aggregated upstream tool RETURNS an in-band `{content:[text],
isError:true}` result (never a thrown `McpError`); `resources/read` with a
URI absent from the aggregated list raises `McpError(InvalidParams)`; a
`resources/read` whose upstream delegation fails raises
`McpError(InternalError)`. -/
theorem C4_error_surface (servers : List ManagedServer) (name : String)
    (args : MetaArgs) (up : Except String UpstreamCallResult)
    (uri : String) (upr : Except String (List ContentItem)) :
    (name ∉ metaToolNames →
      resolveToolCall (aggregateTools servers) name = none →
      ∃ s, callToolHandler servers name args up =
        Except.ok ⟨[.text s], some true⟩) ∧
    ((aggregateResources servers).find? (fun r => r.originalUri == uri) =
        none →
      readResourceHandler servers uri upr =
        Except.error (.invalidParams, "Resource not found: " ++ uri)) ∧
    (∀ r msg,
      (aggregateResources servers).find? (fun rr => rr.originalUri == uri) =
        some r →
      upr = Except.error msg →
      readResourceHandler servers uri upr =
        Except.error (.internalError,
          "Failed to read resource \"" ++ uri ++ "\": " ++ msg)) := by
  refine ⟨?_, ?_, ?_⟩
  · intro hmeta hres
    have h1 : name ≠ "gateway__search_tools" := fun he =>
      hmeta (by rw [he]; decide)
    have h2 : name ≠ "gateway__list_servers" := fun he =>
      hmeta (by rw [he]; decide)
    have h3 : name ≠ "gateway__get_server_tools" := fun he =>
      hmeta (by rw [he]; decide)
    exact ⟨"Error: Tool \"" ++ name ++
      "\" not found. Tool names use the format " ++
      "\"serverprefix__toolname\". Use gateway__search_tools to discover tools.",
      by simp [callToolHandler, h1, h2, h3, hres]⟩
  · intro hfind
    simp [readResourceHandler, hfind]
  · intro r msg hfind hup
    simp [readResourceHandler, hfind, hup]

/-- C4 witness: concrete instances of all three error surfaces. -/
theorem C4_witness :
    (∃ s, callToolHandler [] "nope" ⟨none, none, none⟩ (Except.error "x") =
      Except.ok ⟨[.text s], some true⟩) ∧
    readResourceHandler [] "u" (Except.ok []) =
      Except.error (.invalidParams, "Resource not found: " ++ "u") ∧
    readResourceHandler [demoConnected] "res://a" (Except.error "boom") =
      Except.error (.internalError,
        "Failed to read resource \"" ++ "res://a" ++ "\": " ++ "boom") :=
  ⟨(C4_error_surface [] "nope" ⟨none, none, none⟩ (Except.error "x") "u"
      (Except.ok [])).1 (by decide) (by decide),
    (C4_error_surface [] "nope" ⟨none, none, none⟩ (Except.error "x") "u"
      (Except.ok [])).2.1 (by decide),
    (C4_error_surface [demoConnected] "nope" ⟨none, none, none⟩
      (Except.error "x") "res://a" (Except.error "boom")).2.2
      ⟨"res://a", "r", none, none, "res://a", "res://a", "srv1", "Demo"⟩
      "boom" (by decide) rfl⟩

/-- A separator-free list stays separator-free after dropping its head. -/
theorem containsSep_tail {c : Char} {l : List Char}
    (h : containsSep (c :: l) = false) : containsSep l = false := by
  cases l with
  | nil => rfl
  | cons d rest =>
      simp only [containsSep] at h
      exact (Bool.or_eq_false_iff.mp h).2

/-- In a separator-free list the first two characters are not both
underscores. -/
theorem containsSep_head {c d : Char} {l : List Char}
    (h : containsSep (c :: d :: l) = false) :
    ((c == '_') && (d == '_')) = false := by
  simp only [containsSep] at h
  exact (Bool.or_eq_false_iff.mp h).1

/-- Inside a run (`inRun = true`) the collapser only ever emits an
alphanumeric head. -/
theorem collapseRuns_true_head (l : List Char) :
    ∀ c, (collapseRuns true l).head? = some c → isLowerAlnum c = true := by
  induction l with
  | nil => intro c h; exact Option.noConfusion h
  | cons d rest ih =>
      intro c h
      by_cases hd : isLowerAlnum d
      · simp only [collapseRuns, if_pos hd, List.head?_cons] at h
        rw [← Option.some.inj h]
        exact hd
      · simp only [collapseRuns, if_neg hd, if_pos rfl] at h
        exact ih c h

/-- The collapser never emits two consecutive underscores. -/
theorem containsSep_collapseRuns (l : List Char) :
    ∀ b, containsSep (collapseRuns b l) = false := by
  induction l with
  | nil => intro b; rfl
  | cons c cs ih =>
      intro b
      by_cases hc : isLowerAlnum c
      · rw [collapseRuns, if_pos hc]
        cases hR : collapseRuns false cs with
        | nil => rfl
        | cons d rest =>
            have hcs : containsSep (d :: rest) = false := by
              rw [← hR]; exact ih false
            have hcne : (c == '_') = false := by
              refine beq_eq_false_iff_ne.mpr (fun he => ?_)
              rw [he] at hc
              exact absurd hc (by decide)
            simp [containsSep, hcne, hcs]
      · by_cases hb : b = true
        · rw [collapseRuns, if_neg hc, hb, if_pos rfl]
          exact ih true
        · rw [collapseRuns, if_neg hc,
            if_neg (by simpa using Bool.of_not_eq_true hb)]
          cases hR : collapseRuns true cs with
          | nil => rfl
          | cons d rest =>
              have hd : isLowerAlnum d = true :=
                collapseRuns_true_head cs d (by rw [hR]; rfl)
              have hdne : (d == '_') = false := by
                refine beq_eq_false_iff_ne.mpr (fun he => ?_)
                rw [he] at hd
                exact absurd hd (by decide)
              have hcs : containsSep (d :: rest) = false := by
                rw [← hR]; exact ih true
              simp [containsSep, hdne, hcs]

/-- Dropping leading underscores preserves separator-freeness. -/
theorem containsSep_dropWhile (l : List Char)
    (h : containsSep l = false) :
    containsSep (l.dropWhile (fun c => c = '_')) = false := by
  induction l with
  | nil => exact h
  | cons c cs ih =>
      rw [List.dropWhile_cons]
      by_cases hc : c = '_'
      · rw [if_pos (by simp [hc])]
        exact ih (containsSep_tail h)
      · rw [if_neg (by simp [hc])]
        exact h

/-- When the trailing-underscore trim leaves a non-empty result, the head
is unchanged. -/
theorem dropTrailing_head (l : List Char) :
    dropTrailingUnderscores l = [] ∨
      (dropTrailingUnderscores l).head? = l.head? := by
  cases l with
  | nil => exact Or.inl rfl
  | cons c cs =>
      rw [dropTrailingUnderscores]
      cases hR : dropTrailingUnderscores cs with
      | nil =>
          by_cases hc : c = '_'
          · rw [if_pos hc]; exact Or.inl rfl
          · rw [if_neg hc]; exact Or.inr rfl
      | cons d rest => exact Or.inr rfl

/-- Trimming trailing underscores preserves separator-freeness. -/
theorem containsSep_dropTrailing (l : List Char)
    (h : containsSep l = false) :
    containsSep (dropTrailingUnderscores l) = false := by
  induction l with
  | nil => exact h
  | cons c cs ih =>
      have hcs := containsSep_tail h
      rw [dropTrailingUnderscores]
      cases hR : dropTrailingUnderscores cs with
      | nil =>
          by_cases hc : c = '_'
          · rw [if_pos hc]; rfl
          · rw [if_neg hc]; rfl
      | cons d rest =>
          have hdd : containsSep (d :: rest) = false := by
            rw [← hR]; exact ih hcs
          cases cs with
          | nil => exact absurd hR (by rw [dropTrailingUnderscores]; simp)
          | cons e cs' =>
              rcases dropTrailing_head (e :: cs') with hnil | hhd
              · rw [hnil] at hR; exact List.noConfusion hR
              · rw [hR, List.head?_cons, List.head?_cons] at hhd
                have hde : d = e := Option.some.inj hhd
                subst hde
                have hfirst : ((c == '_') && (d == '_')) = false :=
                  containsSep_head h
                simp [containsSep, hfirst, hdd]

/-- The trailing-underscore trim never leaves `'_'` as the last
character. -/
theorem dropTrailing_getLast (l : List Char) :
    (dropTrailingUnderscores l).getLast? ≠ some '_' := by
  induction l with
  | nil => simp [dropTrailingUnderscores]
  | cons c cs ih =>
      rw [dropTrailingUnderscores]
      cases hR : dropTrailingUnderscores cs with
      | nil =>
          by_cases hc : c = '_'
          · rw [if_pos hc]; simp
          · rw [if_neg hc]
            rw [List.getLast?_singleton]
            exact fun hcon => hc (Option.some.inj hcon)
      | cons d rest =>
          rw [List.getLast?_cons_cons, ← hR]
          exact ih

/-- The normalized prefix contains no `"__"`. -/
theorem containsSep_normalizePrefixL (n : List Char) :
    containsSep (normalizePrefixL n) = false := by
  rw [normalizePrefixL, trimUnderscores]
  exact containsSep_dropTrailing _
    (containsSep_dropWhile _ (containsSep_collapseRuns _ false))

/-- The normalized prefix does not end in `'_'`. -/
theorem getLast_normalizePrefixL (n : List Char) :
    (normalizePrefixL n).getLast? ≠ some '_' := by
  rw [normalizePrefixL, trimUnderscores]
  exact dropTrailing_getLast _

/-- Key splitting lemma: for a non-empty, separator-free `p` that does not
end in `'_'`, parsing `p ++ "__" ++ o` splits exactly at the injected
separator, whatever `o` is. -/
theorem parsePrefixedNameL_append (o : List Char) :
    ∀ p : List Char, p ≠ [] → containsSep p = false →
      p.getLast? ≠ some '_' →
      parsePrefixedNameL (p ++ '_' :: '_' :: o) = some (p, o) := by
  intro p
  induction p with
  | nil => intro h; exact absurd rfl h
  | cons c tail ih =>
      intro _ hsep hlast
      cases tail with
      | nil =>
          have hc : c ≠ '_' := fun he =>
            hlast (by rw [List.getLast?_singleton, he])
          have hin : parsePrefixedNameL ('_' :: '_' :: o) = some ([], o) := by
            rw [parsePrefixedNameL, if_pos ⟨rfl, rfl⟩]
            rfl
          rw [List.singleton_append, parsePrefixedNameL,
            if_neg (fun hcon => hc hcon.1), hin]
          rfl
      | cons c2 rest =>
          have hfirst := containsSep_head hsep
          have hsep' := containsSep_tail hsep
          have hlast' : (c2 :: rest).getLast? ≠ some '_' := by
            rw [List.getLast?_cons_cons] at hlast
            exact hlast
          have ihr := ih (by simp) hsep' hlast'
          have hcond : ¬(c = '_' ∧
              ((c2 :: rest) ++ '_' :: '_' :: o).head? = some '_') := by
            rintro ⟨hc, hh⟩
            rw [List.cons_append, List.head?_cons] at hh
            have hc2 : c2 = '_' := Option.some.inj hh
            rw [hc, hc2] at hfirst
            exact absurd hfirst (by decide)
          rw [List.cons_append, parsePrefixedNameL, if_neg hcond, ihr]
          rfl

/-- C3: for every server name with a non-empty normalized prefix and every
original name free of the separator `"__"`, parsing the prefixed name
recovers exactly `(normalizePrefix(name), original)`. -/
theorem C3_round_trip (name original : String)
    (h1 : normalizePrefixS name ≠ "")
    (h2 : containsSep original.data = false) :
    parsePrefixedNameS (prefixNameS name original) =
      some (normalizePrefixS name, original) := by
  have hne : normalizePrefixL name.data ≠ [] := by
    intro he
    exact h1 (by rw [normalizePrefixS, he])
  have hkey := parsePrefixedNameL_append original.data
    (normalizePrefixL name.data) hne (containsSep_normalizePrefixL _)
    (getLast_normalizePrefixL _)
  rw [parsePrefixedNameS, prefixNameS]
  have harg : (prefixNameL name.data original.data) =
      normalizePrefixL name.data ++ '_' :: '_' :: original.data := by
    rw [prefixNameL, prefixSep, List.append_assoc]
    rfl
  show (parsePrefixedNameL (prefixNameL name.data original.data)).map _ =
    _
  rw [harg, hkey]
  simp [normalizePrefixS]

/-- C3 witness: the round trip on a concrete name and tool, with both
hypotheses discharged. -/
theorem C3_witness :
    normalizePrefixS "Foo Bar" ≠ "" ∧ containsSep "tool".data = false ∧
    parsePrefixedNameS (prefixNameS "Foo Bar" "tool") =
      some (normalizePrefixS "Foo Bar", "tool") :=
  ⟨by decide, by decide, C3_round_trip "Foo Bar" "tool" (by decide)
    (by decide)⟩

end McpGateway

